import Mathlib

/-!
Shallow embedding of the type-directed conversion core of the `jsons`
repository: the union deserializer (`jsons/deserializers/default_union.py`)
and the decorator machinery (`jsons/decorators.py`), together with theorems
settling the specification claims about them.
-/

namespace JsonsUnion

/-- A member type of a Union (one element of `cls.__args__`), identified by
its human-readable class name. -/
structure SubType where
  className : String
deriving DecidableEq, Repr

/-- The Union type object passed as `cls` to `default_union_deserializer`:
`str` embeds Python's `str(cls)` and `args` embeds `cls.__args__`. -/
structure UnionCls where
  str : String
  args : List SubType
deriving DecidableEq, Repr

/-- The input object `obj`: `typeName` embeds `type(obj).__name__` and
`payload` stands for the object's identity. -/
structure Obj where
  typeName : String
  payload : String
deriving DecidableEq, Repr

/-- Outcome of one `load(obj, sub_type, **kwargs)` attempt by the external
Load conversion port: success with a value, a `JsonsError` (the recognized
conversion-failure family, which the resolver catches), or any exception of
a different kind. -/
inductive LoadOutcome (α : Type) where
  | ok (v : α)
  | jsonsError (msg : String)
  | otherError (msg : String)
deriving DecidableEq, Repr

/-- Whether a load attempt failed with an error of the `JsonsError` family. -/
def LoadOutcome.isJsons {α : Type} : LoadOutcome α → Bool
  | .jsonsError _ => true
  | _ => false

/-- Result of running `default_union_deserializer`: a deserialized value, the
aggregate `DeserializationError` raised on exhaustion, or a non-`JsonsError`
exception propagated from a load attempt. -/
inductive UnionResult (α : Type) where
  | ok (v : α)
  | raisedJsons (msg : String)
  | raisedOther (msg : String)
deriving DecidableEq, Repr

/-- Modelled from the spec: `get_class_name` (in `jsons._common_impl`, not
under `src/`) yields the human-readable name of a candidate type for the
given fork. -/
def get_class_name (t : SubType) : String := t.className

/-- The aggregate error message `err_msg` built on exhaustion of all
candidates. The source interpolates two values into the template
`Could not match the object of type ... to any type of the Union: ...`:
first `str(cls)` (the Union type itself) and then `args_msg`, the
comma-joined `get_class_name` of each member of `cls.__args__`. -/
def unionErrMsg (cls : UnionCls) : String :=
  "Could not match the object of type \"" ++ cls.str
    ++ "\" to any type of the Union: "
    ++ String.intercalate ", " (cls.args.map get_class_name)

/-- The `for sub_type in get_union_params(cls): try ... except JsonsError`
loop of `default_union_deserializer`: attempt each candidate in order with
the load port, return the first success immediately, swallow `JsonsError`
failures (try the next candidate), and propagate any other exception at
once. The second component records which candidates were actually attempted
(i.e. had `load` called on them). `get_union_params` (in
`jsons._compatibility_impl`, not under `src/`) is modelled from the spec as
returning the ordered candidate list of the Union, i.e. `cls.__args__`. -/
def tryCandidates {α : Type} (load : Obj → SubType → LoadOutcome α) (obj : Obj) :
    List SubType → Option (UnionResult α) × List SubType
  | [] => (none, [])
  | t :: ts =>
    match load obj t with
    | .ok v => (some (.ok v), [t])
    | .jsonsError _ =>
      match tryCandidates load obj ts with
      | (r, tried) => (r, t :: tried)
    | .otherError msg => (some (.raisedOther msg), [t])

/-- Embeds `default_union_deserializer(obj, cls, **kwargs)`. The load port
(`jsons._main_impl.load`, an external collaborator) is a parameter. When the
candidate loop finishes without a success or a propagated exception, the
`else` branch raises `DeserializationError(err_msg, obj, cls)` with the
message built by `unionErrMsg`. The second component is the list of
candidates attempted. -/
def default_union_deserializer {α : Type} (load : Obj → SubType → LoadOutcome α)
    (obj : Obj) (cls : UnionCls) : UnionResult α × List SubType :=
  match tryCandidates load obj cls.args with
  | (some r, tried) => (r, tried)
  | (none, tried) => (.raisedJsons (unionErrMsg cls), tried)

/-- Candidates that all fail with a `JsonsError` are skipped: the loop moves
past them, prepending them to the attempted list. -/
theorem tryCandidates_append {α : Type} (load : Obj → SubType → LoadOutcome α)
    (obj : Obj) (pre rest : List SubType)
    (hpre : ∀ u ∈ pre, (load obj u).isJsons = true) :
    tryCandidates load obj (pre ++ rest)
      = ((tryCandidates load obj rest).1, pre ++ (tryCandidates load obj rest).2) := by
  induction pre with
  | nil => simp
  | cons u us ih =>
    have hu := hpre u (by simp)
    have hus : ∀ x ∈ us, (load obj x).isJsons = true := fun x hx =>
      hpre x (by simp [hx])
    cases hl : load obj u with
    | ok v => rw [hl] at hu; simp [LoadOutcome.isJsons] at hu
    | jsonsError m => simp [tryCandidates, hl, ih hus]
    | otherError m => rw [hl] at hu; simp [LoadOutcome.isJsons] at hu

/-- Example load port: candidate A fails with a JsonsError, candidates B and
C would both succeed. -/
def loadEx : Obj → SubType → LoadOutcome String := fun _ t =>
  if t.className = "A" then .jsonsError "no A"
  else if t.className = "B" then .ok "B-value"
  else .ok "C-value"

/-- Example load port: candidate A fails with a JsonsError and candidate B
raises an error outside of the `JsonsError` family. -/
def loadExOther : Obj → SubType → LoadOutcome String := fun _ t =>
  if t.className = "A" then .jsonsError "no A"
  else if t.className = "B" then .otherError "boom"
  else .ok "C-value"

/-- Example input object of runtime type `str`. -/
def objEx : Obj := ⟨"str", "hello"⟩

/-- Example Union type with three candidates A, B, C. -/
def clsEx : UnionCls := ⟨"typing.Union[A, B, C]", [⟨"A"⟩, ⟨"B"⟩, ⟨"C"⟩]⟩

/-- C1: union resolution is order-deterministic. If the candidate list
splits as `pre ++ t :: post`, every candidate in `pre` fails with a
recoverable `JsonsError`, and `load` succeeds on `t` with value `v` (so `t`
is the lowest-indexed successful candidate), then the resolver returns
exactly that load result, and the attempted candidates are `pre ++ [t]` —
no candidate after `t` is attempted. -/
theorem union_resolution_order_deterministic {α : Type}
    (load : Obj → SubType → LoadOutcome α) (obj : Obj) (cls : UnionCls)
    (pre post : List SubType) (t : SubType) (v : α)
    (hargs : cls.args = pre ++ t :: post)
    (hpre : ∀ u ∈ pre, (load obj u).isJsons = true)
    (ht : load obj t = .ok v) :
    default_union_deserializer load obj cls = (.ok v, pre ++ [t]) := by
  unfold default_union_deserializer
  rw [hargs, tryCandidates_append load obj pre (t :: post) hpre]
  simp [tryCandidates, ht]

/-- Witness for C1: with candidates A, B, C where A fails recoverably and B
succeeds, the resolver returns B's value having attempted only A and B. -/
theorem union_resolution_order_deterministic_witness :
    default_union_deserializer loadEx objEx clsEx
      = (.ok "B-value", [⟨"A"⟩, ⟨"B"⟩]) :=
  union_resolution_order_deterministic loadEx objEx clsEx
    [⟨"A"⟩] [⟨"C"⟩] ⟨"B"⟩ "B-value" rfl (by decide) (by decide)

/-- C3: only `JsonsError` failures cause the resolver to move on. If every
candidate in `pre` fails with a `JsonsError` and `load` on `t` raises an
error outside the `JsonsError` family, that error propagates immediately:
the resolver's outcome is that raised error and no candidate after `t` is
attempted. -/
theorem union_non_jsons_error_propagates {α : Type}
    (load : Obj → SubType → LoadOutcome α) (obj : Obj) (cls : UnionCls)
    (pre post : List SubType) (t : SubType) (msg : String)
    (hargs : cls.args = pre ++ t :: post)
    (hpre : ∀ u ∈ pre, (load obj u).isJsons = true)
    (ht : load obj t = .otherError msg) :
    default_union_deserializer load obj cls = (.raisedOther msg, pre ++ [t]) := by
  unfold default_union_deserializer
  rw [hargs, tryCandidates_append load obj pre (t :: post) hpre]
  simp [tryCandidates, ht]

/-- Witness for C3: with candidates A, B, C where A fails recoverably and B
raises a non-JsonsError, the error propagates after attempting only A and B,
even though C would have succeeded. -/
theorem union_non_jsons_error_propagates_witness :
    default_union_deserializer loadExOther objEx clsEx
      = (.raisedOther "boom", [⟨"A"⟩, ⟨"B"⟩]) :=
  union_non_jsons_error_propagates loadExOther objEx clsEx
    [⟨"A"⟩] [⟨"C"⟩] ⟨"B"⟩ "boom" rfl (by decide) (by decide)

/-- Example Union type over int and bool, as rendered by `str(cls)`. -/
def clsIntBool : UnionCls := ⟨"typing.Union[int, bool]", [⟨"int"⟩, ⟨"bool"⟩]⟩

/-- C2 (code bug): when every candidate fails with a `JsonsError`, the
raised message interpolates `str(cls)` — the Union type — where the runtime
type of the input object was intended, so two inputs of different runtime
types (`str` and `dict`) produce the identical message, which names the
Union type and the candidate names but not the input's runtime type. -/
theorem union_exhausted_message_ignores_input_type :
    (default_union_deserializer (fun _ _ => (.jsonsError "e" : LoadOutcome String))
        ⟨"str", "hello"⟩ clsIntBool
      = (.raisedJsons ("Could not match the object of type \"typing.Union[int, bool]\""
          ++ " to any type of the Union: int, bool"), [⟨"int"⟩, ⟨"bool"⟩]))
    ∧ (default_union_deserializer (fun _ _ => (.jsonsError "e" : LoadOutcome String))
        ⟨"dict", "x"⟩ clsIntBool
      = (.raisedJsons ("Could not match the object of type \"typing.Union[int, bool]\""
          ++ " to any type of the Union: int, bool"), [⟨"int"⟩, ⟨"bool"⟩])) := by
  constructor <;> rfl

end JsonsUnion

namespace JsonsDecorators

/-- A Python runtime value as the decorator machinery observes it: either a
plain object carrying a payload and the names of the attributes it exposes
(for `hasattr`), or an awaitable wrapping the value it resolves to. -/
inductive Value where
  | obj (payload : String) (attrs : List String)
  | awaitable (inner : Value)
deriving DecidableEq, Repr

/-- A target type, as written in a parameter or return annotation. -/
abbrev Ty := String

/-- Keyword arguments supplied at a call site, in order. -/
abbrev Kwargs := List (String × Value)

/-- One formal parameter from `signature(func).parameters`: its name and its
declared type (`none` embeds `Parameter.empty`, following the source's
`sig.annotation if sig.annotation != Parameter.empty else None`). -/
structure Param where
  name : String
  ann : Option Ty
deriving DecidableEq, Repr

/-- A plain function (or instance method) being decorated: `name` embeds
`decorated.__name__`; `params` and `retAnn` are what `signature(decorated)`
reflects; `isCoroutine` embeds `iscoroutinefunction(decorated)`; `call` is
the underlying callable itself, taking positional and keyword arguments. -/
structure FuncData where
  name : String
  params : List Param
  retAnn : Option Ty
  isCoroutine : Bool
  call : List Value → Kwargs → Value

/-- The conversion port (`jsons.load` or `jsons.dump`, external
collaborators): maps a value and an optional target type to a converted
value. The fork and the extra mapper kwargs are opaque to the decorator
logic and are folded into the function. -/
abbrev Mapper := Value → Option Ty → Value

/-- A Python exception escaping from argument pairing. -/
inductive PyErr where
  | indexError
deriving DecidableEq, Repr

/-- A Python exception raised at decoration time (`raise Exception(msg)`). -/
structure PyException where
  msg : String
deriving DecidableEq, Repr

/-- What the underlying callable received when it was invoked: the
positional arguments and the keyword arguments actually passed to it. -/
structure InvokeTrace where
  calledArgs : List Value
  calledKwargs : Kwargs
deriving DecidableEq, Repr

/-- Embeds Python's `hasattr(arg, name)`. -/
def hasattr : Value → String → Bool
  | .obj _ attrs, n => attrs.contains n
  | .awaitable _, _ => false

/-- Embeds `inspect.isawaitable(result)`. -/
def isawaitable : Value → Bool
  | .awaitable _ => true
  | _ => false

/-- Embeds `await result` for a value already known to be awaitable. -/
def awaited : Value → Value
  | .awaitable v => v
  | v => v

/-- Output shape of a wrapper invocation: the call's result or an escaped
exception, the trace of what the underlying callable received (`none` when
it was never invoked), and the number of `signature(...)` reflection calls
performed during the invocation. -/
abbrev WrapOut := Except PyErr Value × Option InvokeTrace × Nat

/-- Embeds `_get_params_sig(args, func)`: it calls `signature(func)` (one
reflection, counted in the second component) and builds the list pairing
`args[i]` with the i-th parameter for every i below `len(args)`; when there
are more positional arguments than declared parameters, indexing the
parameter list raises an `IndexError`. -/
def _get_params_sig (args : List Value) (func : FuncData) :
    Except PyErr (List (Value × Param)) × Nat :=
  (if args.length ≤ func.params.length
    then .ok (args.zip func.params)
    else .error .indexError, 1)

/-- Embeds `_map_args(args, decorated, fork_inst, mapper, mapper_kwargs)`:
pair each positional argument with its parameter via `_get_params_sig`,
then for each pair keep the argument unchanged when the parameter is named
`self` or `cls` and the argument has an attribute named after the decorated
callable, and otherwise convert it with the mapper, targeting the
parameter's declared type (or no type when the annotation is absent). -/
def _map_args (args : List Value) (decorated : FuncData) (mapper : Mapper) :
    Except PyErr (List Value) × Nat :=
  match _get_params_sig args decorated with
  | (.error e, n) => (.error e, n)
  | (.ok params_sig, n) =>
    (.ok (params_sig.map (fun p =>
      if (p.2.name = "self" ∨ p.2.name = "cls") ∧ hasattr p.1 decorated.name
      then p.1
      else mapper p.1 p.2.ann)), n)

/-- Embeds `_map_returnvalue(returnvalue, decorated, fork_inst, mapper,
mapper_kwargs)`: it calls `signature(decorated)` again (one reflection,
counted) to read the return annotation and converts the raw return value
with the mapper, targeting the declared return type (or no type when the
return annotation is absent). -/
def _map_returnvalue (returnvalue : Value) (decorated : FuncData)
    (mapper : Mapper) : Value × Nat :=
  (mapper returnvalue decorated.retAnn, 1)

/-- Embeds `_run_decorated(decorated, mapper, fork_inst, args, kwargs,
mapper_kwargs)`: when a mapper is given (parameter conversion enabled) the
positional arguments are mapped first, and the underlying callable is then
invoked with the (possibly converted) positional arguments and the
untouched keyword arguments. The trace records what the callable received;
it is `none` when argument mapping raised before the call. -/
def _run_decorated (decorated : FuncData) (mapperOpt : Option Mapper)
    (args : List Value) (kwargs : Kwargs) : WrapOut :=
  match mapperOpt with
  | none => (.ok (decorated.call args kwargs), some ⟨args, kwargs⟩, 0)
  | some m =>
    match _map_args args decorated m with
    | (.error e, n) => (.error e, none, n)
    | (.ok new_args, n) =>
      (.ok (decorated.call new_args kwargs), some ⟨new_args, kwargs⟩, n)

/-- Embeds the synchronous `_wrapper(*args, **kwargs)` closed over the
flags, mapper and decorated callable: run the decorated callable (with the
mapper only when `parameters` is true), then, when `returnvalue` is true,
convert the raw result through `_map_returnvalue`. -/
def _wrapper (parameters returnvalue : Bool) (mapper : Mapper)
    (decorated : FuncData) (args : List Value) (kwargs : Kwargs) : WrapOut :=
  match _run_decorated decorated (if parameters then some mapper else none)
      args kwargs with
  | (.error e, tr, n) => (.error e, tr, n)
  | (.ok result, tr, n) =>
    if returnvalue then
      match _map_returnvalue result decorated mapper with
      | (result2, n2) => (.ok result2, tr, n + n2)
    else (.ok result, tr, n)

/-- Embeds the asynchronous `_async_wrapper(*args, **kwargs)`: identical to
`_wrapper` except that, between the underlying call and return-value
conversion, an awaitable result is awaited (`if isawaitable(result): result
= await result`). -/
def _async_wrapper (parameters returnvalue : Bool) (mapper : Mapper)
    (decorated : FuncData) (args : List Value) (kwargs : Kwargs) : WrapOut :=
  match _run_decorated decorated (if parameters then some mapper else none)
      args kwargs with
  | (.error e, tr, n) => (.error e, tr, n)
  | (.ok result, tr, n) =>
    let result := if isawaitable result then awaited result else result
    if returnvalue then
      match _map_returnvalue result decorated mapper with
      | (result2, n2) => (.ok result2, tr, n + n2)
    else (.ok result, tr, n)

/-- The object handed to the decorator: a plain function, a static-method
descriptor (`isinstance(decorated, staticmethod)`), a class-method
descriptor (which is neither a `staticmethod` instance nor a `type`), or a
type (`isinstance(decorated, type)`). -/
inductive Decoratable where
  | func (f : FuncData)
  | staticmethodDescr (f : FuncData)
  | classmethodDescr (f : FuncData)
  | typeObj (n : String)

/-- Embeds `_get_decorator(parameters, returnvalue, fork_inst, mapper,
mapper_kwargs)` applied to a target `decorated` (i.e. the body of the inner
`_decorator`): a static-method descriptor raises at decoration time, a type
raises at decoration time, and otherwise the wrapper variant is selected
once, from `iscoroutinefunction(decorated)` (`true` = the async wrapper;
a class-method descriptor is not a coroutine function). The outer `Nat`
counts `signature(...)` reflection calls performed at decoration time: the
source performs none. -/
def _get_decorator (parameters returnvalue : Bool) (mapper : Mapper)
    (decorated : Decoratable) : Except PyException (Bool × Decoratable) × Nat :=
  (match decorated with
  | .staticmethodDescr _ => .error ⟨"Cannot decorate a static- or classmethod."⟩
  | .typeObj _ => .error ⟨"Cannot decorate a class."⟩
  | .func f => .ok (f.isCoroutine, decorated)
  | .classmethodDescr _ => .ok (false, decorated), 0)

/-- The positional argument that the underlying callable received at
position `i`, if it was invoked at all. -/
def calledArgAt (out : WrapOut) (i : Nat) : Option Value :=
  match out.2.1 with
  | some tr => tr.calledArgs[i]?
  | none => none

/-- The synchronous wrapper passes the invocation trace of `_run_decorated`
through unchanged. -/
theorem wrapper_trace (p r : Bool) (m : Mapper) (f : FuncData)
    (args : List Value) (kwargs : Kwargs) :
    (_wrapper p r m f args kwargs).2.1
      = (_run_decorated f (if p then some m else none) args kwargs).2.1 := by
  unfold _wrapper
  generalize _run_decorated f (if p then some m else none) args kwargs = out
  rcases out with ⟨res, tr, n⟩
  cases res <;> cases r <;> simp [_map_returnvalue]

/-- The asynchronous wrapper passes the invocation trace of `_run_decorated`
through unchanged. -/
theorem async_wrapper_trace (p r : Bool) (m : Mapper) (f : FuncData)
    (args : List Value) (kwargs : Kwargs) :
    (_async_wrapper p r m f args kwargs).2.1
      = (_run_decorated f (if p then some m else none) args kwargs).2.1 := by
  unfold _async_wrapper
  generalize _run_decorated f (if p then some m else none) args kwargs = out
  rcases out with ⟨res, tr, n⟩
  cases res <;> cases r <;> simp [_map_returnvalue]

/-- Whenever the underlying callable is invoked by `_run_decorated`, the
keyword arguments it receives are exactly the supplied ones. -/
theorem run_decorated_kwargs (f : FuncData) (mo : Option Mapper)
    (args : List Value) (kwargs : Kwargs) (tr : InvokeTrace)
    (h : (_run_decorated f mo args kwargs).2.1 = some tr) :
    tr.calledKwargs = kwargs := by
  cases mo with
  | none =>
    simp [_run_decorated] at h
    subst h
    rfl
  | some m =>
    unfold _run_decorated _map_args _get_params_sig at h
    by_cases hlen : args.length ≤ f.params.length <;> simp [hlen] at h
    subst h
    rfl

/-- When the pairing succeeds, `_map_args` returns the pointwise mapped
arguments. -/
theorem map_args_ok (args : List Value) (f : FuncData) (m : Mapper)
    (hlen : args.length ≤ f.params.length) :
    _map_args args f m
      = (.ok ((args.zip f.params).map (fun p =>
          if (p.2.name = "self" ∨ p.2.name = "cls") ∧ hasattr p.1 f.name
          then p.1
          else m p.1 p.2.ann)), 1) := by
  unfold _map_args _get_params_sig
  simp [hlen]

/-- Unfolding `_run_decorated` without a mapper (parameter conversion
disabled). -/
theorem run_decorated_none (f : FuncData) (args : List Value) (kwargs : Kwargs) :
    _run_decorated f none args kwargs
      = (.ok (f.call args kwargs), some ⟨args, kwargs⟩, 0) := rfl

/-- Unfolding `_run_decorated` with a mapper (parameter conversion
enabled). -/
theorem run_decorated_some (f : FuncData) (m : Mapper) (args : List Value)
    (kwargs : Kwargs) :
    _run_decorated f (some m) args kwargs
      = (match _map_args args f m with
        | (.error e, n) => (.error e, none, n)
        | (.ok new_args, n) =>
          (.ok (f.call new_args kwargs), some ⟨new_args, kwargs⟩, n)) := rfl

/-- Zipping two lists and indexing below both lengths yields the pair of
the elements at that index. -/
theorem zip_getElem_of_lt {α β : Type} (l1 : List α) (l2 : List β) (i : Nat)
    (h1 : i < l1.length) (h2 : i < l2.length) :
    (l1.zip l2)[i]? = some (l1.get ⟨i, h1⟩, l2.get ⟨i, h2⟩) := by
  rw [List.getElem?_zip_eq_some]
  exact ⟨by simp [List.getElem?_eq_getElem h1], by simp [List.getElem?_eq_getElem h2]⟩

/-- The payload carried by a value (looking through awaitables). -/
def payloadOf : Value → String
  | .obj p _ => p
  | .awaitable v => payloadOf v

/-- Example conversion port: tags the payload with the requested target
type. -/
def mEx : Mapper := fun v t => .obj (payloadOf v ++ "|" ++ t.getD "?") []

/-- Example instance method `area(self, x: int) -> float`. -/
def fEx : FuncData :=
  { name := "area"
    params := [⟨"self", none⟩, ⟨"x", some "int"⟩]
    retAnn := some "float"
    isCoroutine := false
    call := fun _ _ => .obj "ret" [] }

/-- Example positional arguments for `fEx`: a receiver exposing an `area`
attribute, and a plain value. -/
def argsEx : List Value := [.obj "recv" ["area"], .obj "5" []]

/-- C4: receiver skip rule. With parameter conversion enabled and the
pairing in range, the positional argument the underlying callable receives
at position `i` (under either wrapper) is the original argument when its
parameter is named `self` or `cls` and the argument exposes an attribute
named after the wrapped callable; every other positional argument is the
mapper applied to the argument with the parameter's declared type as
target. -/
theorem receiver_skip_rule (r : Bool) (m : Mapper) (f : FuncData)
    (args : List Value) (kwargs : Kwargs)
    (hlen : args.length ≤ f.params.length) (i : Nat) (hi : i < args.length) :
    calledArgAt (_wrapper true r m f args kwargs) i
        = some (if ((f.params.get ⟨i, lt_of_lt_of_le hi hlen⟩).name = "self"
                      ∨ (f.params.get ⟨i, lt_of_lt_of_le hi hlen⟩).name = "cls")
                    ∧ hasattr (args.get ⟨i, hi⟩) f.name
                then args.get ⟨i, hi⟩
                else m (args.get ⟨i, hi⟩) (f.params.get ⟨i, lt_of_lt_of_le hi hlen⟩).ann)
      ∧ calledArgAt (_async_wrapper true r m f args kwargs) i
        = some (if ((f.params.get ⟨i, lt_of_lt_of_le hi hlen⟩).name = "self"
                      ∨ (f.params.get ⟨i, lt_of_lt_of_le hi hlen⟩).name = "cls")
                    ∧ hasattr (args.get ⟨i, hi⟩) f.name
                then args.get ⟨i, hi⟩
                else m (args.get ⟨i, hi⟩) (f.params.get ⟨i, lt_of_lt_of_le hi hlen⟩).ann) := by
  have hrun : (_run_decorated f (if true then some m else none) args kwargs).2.1
      = some ⟨(args.zip f.params).map (fun p =>
          if (p.2.name = "self" ∨ p.2.name = "cls") ∧ hasattr p.1 f.name
          then p.1
          else m p.1 p.2.ann), kwargs⟩ := by
    show (_run_decorated f (some m) args kwargs).2.1 = _
    rw [run_decorated_some, map_args_ok args f m hlen]
  have hidx : ((args.zip f.params).map (fun p =>
          if (p.2.name = "self" ∨ p.2.name = "cls") ∧ hasattr p.1 f.name
          then p.1
          else m p.1 p.2.ann))[i]?
      = some (if ((f.params.get ⟨i, lt_of_lt_of_le hi hlen⟩).name = "self"
                      ∨ (f.params.get ⟨i, lt_of_lt_of_le hi hlen⟩).name = "cls")
                    ∧ hasattr (args.get ⟨i, hi⟩) f.name
                then args.get ⟨i, hi⟩
                else m (args.get ⟨i, hi⟩) (f.params.get ⟨i, lt_of_lt_of_le hi hlen⟩).ann) := by
    rw [List.getElem?_map, zip_getElem_of_lt args f.params i hi (lt_of_lt_of_le hi hlen)]
    rfl
  constructor
  · unfold calledArgAt
    rw [wrapper_trace, hrun]
    exact hidx
  · unfold calledArgAt
    rw [async_wrapper_trace, hrun]
    exact hidx

/-- Witness for C4: wrapping `area` and calling it with a receiver exposing
an `area` attribute forwards the receiver unconverted, while the second
argument is converted targeting `int`. -/
theorem receiver_skip_rule_witness :
    calledArgAt (_wrapper true true mEx fEx argsEx []) 0
        = some (.obj "recv" ["area"])
      ∧ calledArgAt (_wrapper true true mEx fEx argsEx []) 1
        = some (.obj "5|int" []) := by
  have h0 := receiver_skip_rule true mEx fEx argsEx [] (by decide) 0 (by decide)
  have h1 := receiver_skip_rule true mEx fEx argsEx [] (by decide) 1 (by decide)
  exact ⟨by rw [h0.1]; decide, by rw [h1.1]; decide⟩

/-- C5: the two adaptation flags. When `parameters` is false the underlying
callable receives the positional arguments unchanged (so the raw result is
the call on the original arguments); when `returnvalue` is true the
wrapper's answer is the mapper applied to the raw result with the declared
return type as target; when `returnvalue` is false the raw result itself is
returned. -/
theorem adaptation_flags_behavior (p : Bool) (m : Mapper) (f : FuncData)
    (args : List Value) (kwargs : Kwargs) (raw : Value)
    (tr : Option InvokeTrace) (n : Nat)
    (h : _run_decorated f (if p then some m else none) args kwargs
      = (.ok raw, tr, n)) :
    (p = false → raw = f.call args kwargs ∧ tr = some ⟨args, kwargs⟩)
      ∧ (_wrapper p true m f args kwargs).1 = .ok (m raw f.retAnn)
      ∧ (_wrapper p false m f args kwargs).1 = .ok raw := by
  refine ⟨?_, ?_, ?_⟩
  · intro hp
    subst hp
    simp [_run_decorated] at h
    exact ⟨h.1.symm, by rw [← h.2.1]⟩
  · unfold _wrapper
    rw [h]
    simp [_map_returnvalue]
  · unfold _wrapper
    rw [h]
    simp

/-- Witness for C5: with `parameters` false, the raw result of `fEx` is
converted (targeting `float`) exactly when `returnvalue` is true. -/
theorem adaptation_flags_behavior_witness :
    (_wrapper false true mEx fEx [Value.obj "5" []] []).1
        = .ok (.obj "ret|float" [])
      ∧ (_wrapper false false mEx fEx [Value.obj "5" []] []).1
        = .ok (.obj "ret" []) := by
  have h := adaptation_flags_behavior false mEx fEx [Value.obj "5" []] []
    (.obj "ret" []) (some ⟨[Value.obj "5" []], []⟩) 0 rfl
  exact ⟨by rw [h.2.1]; rfl, h.2.2⟩

/-- C6: keyword arguments are forwarded exactly as supplied. If either
wrapper's invocation trace shows the underlying callable was invoked, the
keyword arguments it received are the supplied ones, for every setting of
the flags and every mapper. -/
theorem kwargs_forwarded_unconverted (p r : Bool) (m : Mapper) (f : FuncData)
    (args : List Value) (kwargs : Kwargs) (tr : InvokeTrace)
    (h : (_wrapper p r m f args kwargs).2.1 = some tr
      ∨ (_async_wrapper p r m f args kwargs).2.1 = some tr) :
    tr.calledKwargs = kwargs := by
  cases h with
  | inl hs =>
    rw [wrapper_trace] at hs
    exact run_decorated_kwargs f (if p then some m else none) args kwargs tr hs
  | inr ha =>
    rw [async_wrapper_trace] at ha
    exact run_decorated_kwargs f (if p then some m else none) args kwargs tr ha

/-- Witness for C6: a concrete invocation with parameter and return
conversion enabled forwards the supplied keyword argument untouched. -/
theorem kwargs_forwarded_unconverted_witness :
    InvokeTrace.calledKwargs
        ⟨[Value.obj "recv" ["area"], Value.obj "5|int" []],
          [("k", Value.obj "v" [])]⟩
      = [("k", Value.obj "v" [])] :=
  kwargs_forwarded_unconverted true true mEx fEx argsEx
    [("k", Value.obj "v" [])]
    ⟨[Value.obj "recv" ["area"], Value.obj "5|int" []],
      [("k", Value.obj "v" [])]⟩
    (.inl (by decide))

/-- C7 counterexample: applying the decorator to a class-method descriptor
does not raise — it returns an ordinary wrapper — so the claim that a
class-bound method descriptor is rejected eagerly at adaptation time is
false on the code (only `staticmethod` instances are caught by the
`isinstance` check). -/
theorem classmethod_descriptor_not_rejected :
    _get_decorator true true mEx (.classmethodDescr fEx)
      = (.ok (false, .classmethodDescr fEx), 0) := rfl

/-- C7 amended: applying the decorator to a static-method descriptor raises
an exception at decoration time (before any wrapper exists to invoke), and
applying it to a type raises the same error kind at decoration time; a
class-method descriptor, however, is not detected and a wrapper is
returned. -/
theorem wrap_time_rejection_static_and_type (p r : Bool) (m : Mapper)
    (f : FuncData) (nm : String) :
    _get_decorator p r m (.staticmethodDescr f)
        = (.error ⟨"Cannot decorate a static- or classmethod."⟩, 0)
      ∧ _get_decorator p r m (.typeObj nm)
        = (.error ⟨"Cannot decorate a class."⟩, 0)
      ∧ _get_decorator p r m (.classmethodDescr f)
        = (.ok (false, .classmethodDescr f), 0) :=
  ⟨rfl, rfl, rfl⟩

/-- Evaluation of the async wrapper with both flags enabled, once argument
mapping has succeeded: the raw call result is awaited when awaitable and
then converted, and one further reflection is paid for the return
annotation. -/
theorem async_wrapper_converting_ok (m : Mapper) (f : FuncData)
    (args : List Value) (kwargs : Kwargs) (new_args : List Value) (n : Nat)
    (hmap : _map_args args f m = (.ok new_args, n)) :
    _async_wrapper true true m f args kwargs
      = (.ok (m (if isawaitable (f.call new_args kwargs)
                then awaited (f.call new_args kwargs)
                else f.call new_args kwargs) f.retAnn),
          some ⟨new_args, kwargs⟩, n + 1) := by
  unfold _async_wrapper
  rw [show (if (true : Bool) = true then some m else none) = some m from rfl,
    run_decorated_some, hmap]
  rfl

/-- C8: suspending dispatch. For a coroutine function the async wrapper
variant is selected once at decoration time; on invocation the positional
arguments are converted first (eagerly, by `_map_args`), the underlying
call's awaitable result is awaited, and only then is return-value
conversion applied — the adapted call yields the conversion of the resolved
value, not the awaitable and not the raw result. -/
theorem suspending_dispatch_awaits_before_conversion (m : Mapper)
    (f : FuncData) (args : List Value) (kwargs : Kwargs)
    (new_args : List Value) (n : Nat) (v : Value)
    (hco : f.isCoroutine = true)
    (hmap : _map_args args f m = (.ok new_args, n))
    (hcall : f.call new_args kwargs = .awaitable v) :
    _get_decorator true true m (.func f) = (.ok (true, .func f), 0)
      ∧ _async_wrapper true true m f args kwargs
        = (.ok (m v f.retAnn), some ⟨new_args, kwargs⟩, n + 1) := by
  constructor
  · simp [_get_decorator, hco]
  · rw [async_wrapper_converting_ok m f args kwargs new_args n hmap, hcall]
    rfl

/-- Example coroutine function `fetch(x: int) -> date` whose body returns
an awaitable resolving to a raw value. -/
def fCo : FuncData :=
  { name := "fetch"
    params := [⟨"x", some "int"⟩]
    retAnn := some "date"
    isCoroutine := true
    call := fun _ _ => .awaitable (.obj "raw" []) }

/-- Witness for C8: adapting the coroutine `fCo` selects the async wrapper,
and awaiting the adapted call yields the conversion (targeting `date`) of
the resolved value `raw`, with the argument converted eagerly. -/
theorem suspending_dispatch_awaits_before_conversion_witness :
    _get_decorator true true mEx (.func fCo) = (.ok (true, .func fCo), 0)
      ∧ _async_wrapper true true mEx fCo [Value.obj "5" []] []
        = (.ok (.obj "raw|date" []),
            some ⟨[Value.obj "5|int" []], []⟩, 2) :=
  suspending_dispatch_awaits_before_conversion mEx fCo
    [Value.obj "5" []] [] [Value.obj "5|int" []] 1 (.obj "raw" [])
    rfl rfl rfl

/-- C9 counterexample: a concrete invocation of the adapted callable, with
both flags enabled, performs two `signature(...)` reflection calls (one in
`_get_params_sig` during argument pairing and one in `_map_returnvalue`),
so it is false that no invocation performs signature introspection. -/
theorem invocation_performs_introspection :
    (_wrapper true true mEx fEx argsEx []).2.2 = 2 := rfl

/-- The `_map_args` step always performs exactly one `signature(...)`
reflection call (inside `_get_params_sig`). -/
theorem map_args_count (args : List Value) (f : FuncData) (m : Mapper) :
    (_map_args args f m).2 = 1 := by
  unfold _map_args _get_params_sig
  by_cases hlen : args.length ≤ f.params.length <;> simp [hlen]

/-- C9 amended: signature introspection is paid per invocation, not once at
wrap time. Decoration itself performs no `signature(...)` call, while every
successful invocation of the synchronous wrapper performs one reflection
when parameter conversion is enabled plus one when return-value conversion
is enabled. -/
theorem introspection_is_per_invocation (p r : Bool) (m : Mapper)
    (f : FuncData) (args : List Value) (kwargs : Kwargs) (res : Value)
    (tr : Option InvokeTrace) (n : Nat)
    (h : _wrapper p r m f args kwargs = (.ok res, tr, n)) :
    n = (if p then 1 else 0) + (if r then 1 else 0)
      ∧ (_get_decorator p r m (.func f)).2 = 0 := by
  refine ⟨?_, rfl⟩
  cases p with
  | false =>
    cases r with
    | false =>
      have hn : (0 : Nat) = n := congrArg (fun x => x.2.2) h
      subst hn
      decide
    | true =>
      have hn : (0 + 1 : Nat) = n := congrArg (fun x => x.2.2) h
      subst hn
      decide
  | true =>
    have hc := map_args_count args f m
    rcases hm : _map_args args f m with ⟨mres, mn⟩
    rw [hm] at hc
    simp at hc
    subst hc
    unfold _wrapper at h
    rw [show (if (true : Bool) = true then some m else none) = some m from rfl,
      run_decorated_some, hm] at h
    cases mres with
    | error e =>
      have hcontra : (Except.error e : Except PyErr Value) = .ok res :=
        congrArg (fun x => x.1) h
      exact Except.noConfusion hcontra
    | ok new_args =>
      cases r with
      | false =>
        have hn : (1 : Nat) = n := congrArg (fun x => x.2.2) h
        subst hn
        decide
      | true =>
        have hn : (1 + 1 : Nat) = n := congrArg (fun x => x.2.2) h
        subst hn
        decide

/-- Witness for C9 amended: the concrete invocation with both flags enabled
performs `1 + 1` reflection calls, and decoration performs none. -/
theorem introspection_is_per_invocation_witness :
    (2 : Nat) = (if true then 1 else 0) + (if true then 1 else 0)
      ∧ (_get_decorator true true mEx (.func fEx)).2 = 0 :=
  introspection_is_per_invocation true true mEx fEx argsEx []
    (.obj "ret|float" [])
    (some ⟨[Value.obj "recv" ["area"], Value.obj "5|int" []], []⟩) 2 rfl

/-- C10: with parameter conversion enabled, supplying more positional
arguments than the wrapped callable declares parameters makes either
wrapper fail with an `IndexError` raised during argument pairing, with the
underlying callable never invoked (the invocation trace is empty). -/
theorem excess_positional_args_index_error (r : Bool) (m : Mapper)
    (f : FuncData) (args : List Value) (kwargs : Kwargs)
    (h : f.params.length < args.length) :
    _wrapper true r m f args kwargs = (.error .indexError, none, 1)
      ∧ _async_wrapper true r m f args kwargs
        = (.error .indexError, none, 1) := by
  have hle : ¬ args.length ≤ f.params.length := Nat.not_le.2 h
  have hmap : _map_args args f m = (.error .indexError, 1) := by
    unfold _map_args _get_params_sig
    simp [hle]
  constructor
  · unfold _wrapper
    show (match _run_decorated f (some m) args kwargs with
      | (.error e, tr, n) => ((.error e : Except PyErr Value), tr, n)
      | (.ok result, tr, n) =>
        if r then
          match _map_returnvalue result f m with
          | (result2, n2) => (.ok result2, tr, n + n2)
        else (.ok result, tr, n)) = _
    rw [run_decorated_some, hmap]
  · unfold _async_wrapper
    show (match _run_decorated f (some m) args kwargs with
      | (.error e, tr, n) => ((.error e : Except PyErr Value), tr, n)
      | (.ok result, tr, n) =>
        let result := if isawaitable result then awaited result else result
        if r then
          match _map_returnvalue result f m with
          | (result2, n2) => (.ok result2, tr, n + n2)
        else (.ok result, tr, n)) = _
    rw [run_decorated_some, hmap]

/-- Example function `g(x: int)` with a single declared parameter. -/
def fOne : FuncData :=
  { name := "g"
    params := [⟨"x", some "int"⟩]
    retAnn := none
    isCoroutine := false
    call := fun _ _ => .obj "g" [] }

/-- Witness for C10: calling the adapted `fOne` with two positional
arguments raises an `IndexError` before `fOne` itself ever runs. -/
theorem excess_positional_args_index_error_witness :
    _wrapper true true mEx fOne [Value.obj "a" [], Value.obj "b" []] []
        = (.error .indexError, none, 1)
      ∧ _async_wrapper true true mEx fOne [Value.obj "a" [], Value.obj "b" []] []
        = (.error .indexError, none, 1) :=
  excess_positional_args_index_error true mEx fOne
    [Value.obj "a" [], Value.obj "b" []] [] (by decide)

end JsonsDecorators
